import Mathlib

/-!
Shallow embedding of the us-market-hours-api core logic.

Source files embedded here:
  src/app/business_logic.py  (MarketHoursLogic: et_to_utc,
    get_market_hours_for_date, is_market_open, next_market_event,
    get_week_schedule)
  src/app/scraper.py  (MarketHoursScraper: holiday and early-close
    tables, generate_market_days)
  src/app/models.py  (MarketDay, MarketStatus, MarketHoursResponse,
    NextEventResponse)

Modelling conventions:
  - A calendar date is a day number: days since 0000-03-01 (proleptic
    Gregorian), computed by daysFromCivil below (the standard
    era-based civil-calendar algorithm).  With this epoch,
    weekday z = (z + 2) % 7 agrees with Python date.weekday()
    (Monday = 0 .. Sunday = 6).
  - A UTC instant is a Nat: whole seconds since 0000-03-01T00:00:00
    UTC.  The date of an instant t is t / 86400, matching
    datetime.date() on an aware UTC datetime.
  - Python exceptions (strptime ValueError on a malformed time
    string, TypeError on None) are modelled by Option: a none result
    of an operation means the Python code raises.
  - The database singleton db.get_market_day is modelled as an
    explicit store parameter of type Nat -> Option MarketDay; the
    Python functions that call datetime.now(UTC) take the current
    instant as an explicit parameter instead.
-/

namespace USMarketHours

/-- Day number of the civil date y-m-d: days since 0000-03-01 in the
proleptic Gregorian calendar (era-based algorithm, valid for y >= 1,
1 <= m <= 12). -/
def daysFromCivil (y m d : Nat) : Nat :=
  let yAdj := if m ≤ 2 then y - 1 else y
  let era := yAdj / 400
  let yoe := yAdj % 400
  let mp := if 2 < m then m - 3 else m + 9
  let doy := (153 * mp + 2) / 5 + d - 1
  let doe := yoe * 365 + yoe / 4 - yoe / 100 + doy
  era * 146097 + doe

/-- Abbreviation used for concrete date literals in the development. -/
def mkDate (y m d : Nat) : Nat := daysFromCivil y m d

/-- The civil year that day number z falls in (inverse direction of
daysFromCivil, year component only). -/
def yearOfDays (z : Nat) : Nat :=
  let era := z / 146097
  let doe := z % 146097
  let yoe := (doe - doe / 1460 + doe / 36524 - doe / 146096) / 365
  let y := yoe + era * 400
  let doy := doe - (365 * yoe + yoe / 4 - yoe / 100)
  let mp := (5 * doy + 2) / 153
  if 10 ≤ mp then y + 1 else y

/-- Day of week of day number z, Python convention: Monday = 0 ..
Sunday = 6 (matches date.weekday()). -/
def weekday (z : Nat) : Nat := (z + 2) % 7

/-- First day number on or after z that is a Sunday. -/
def nextSundayOnOrAfter (z : Nat) : Nat := z + (6 - weekday z) % 7

/-- Day number of the second Sunday of March of year y (US DST start
day under the post-2007 rule used by the America/New_York zone). -/
def secondSundayOfMarch (y : Nat) : Nat :=
  nextSundayOnOrAfter (daysFromCivil y 3 8)

/-- Day number of the first Sunday of November of year y (US DST end
day). -/
def firstSundayOfNovember (y : Nat) : Nat :=
  nextSundayOnOrAfter (daysFromCivil y 11 1)

/-- Whether US Eastern daylight-saving time is in effect on day z.
This embeds the IANA America/New_York rule used by pytz for the years
the program covers: DST from the second Sunday of March through the
day before the first Sunday of November.  The 02:00-local transition
hour never matters here because the program only converts daytime
wall-clock times (09:30, 13:00, 16:00). -/
def isDST (z : Nat) : Bool :=
  let y := yearOfDays z
  if secondSundayOfMarch y ≤ z ∧ z < firstSundayOfNovember y then true else false

/-- Seconds to add to an Eastern wall-clock instant to obtain UTC on
day z: 4 hours during DST (EDT), 5 hours otherwise (EST). -/
def etOffsetSecs (z : Nat) : Nat := if isDST z then 4 * 3600 else 5 * 3600

/-- Splits a character list on the colon character; models the
field separation strptime performs for the "%H:%M:%S" format. -/
def splitOnColon (cs : List Char) : List (List Char) :=
  match cs with
  | [] => [[]]
  | c :: rest =>
    let r := splitOnColon rest
    if c = ':' then [] :: r
    else
      match r with
      | f :: tail => (c :: f) :: tail
      | [] => [[c]]

/-- Numeric value of a digit list, none if any character is not a
digit. -/
def digitsVal (cs : List Char) (acc : Nat) : Option Nat :=
  match cs with
  | [] => some acc
  | c :: rest =>
    if c.isDigit then digitsVal rest (acc * 10 + (c.toNat - 48)) else none

/-- One strptime numeric field: 1 or 2 digits, value at most maxVal. -/
def parseField (maxVal : Nat) (cs : List Char) : Option Nat :=
  if cs.length = 0 ∨ 2 < cs.length then none
  else
    match digitsVal cs 0 with
    | some n => if n ≤ maxVal then some n else none
    | none => none

/-- Models datetime.strptime(time_str, "%H:%M:%S").time() followed by
conversion to seconds after local midnight: three colon-separated
numeric fields, hour at most 23, minute and second at most 59; none
models the ValueError raised on malformed input. -/
def parseTimeStr (s : String) : Option Nat :=
  match splitOnColon s.data with
  | [h, m, sec] =>
    match parseField 23 h, parseField 59 m, parseField 59 sec with
    | some hh, some mm, some ss => some (hh * 3600 + mm * 60 + ss)
    | _, _, _ => none
  | _ => none

/-- Market status enum from src/app/models.py. -/
inductive MarketStatus where
  | OPEN
  | CLOSED
  | EARLY_CLOSE
deriving DecidableEq

/-- Internal market day representation from src/app/models.py
(pydantic MarketDay), with the same field defaults.  Time-of-day
fields are the raw strings the Python model stores. -/
structure MarketDay where
  date : Nat
  open_time_et : Option String := none
  close_time_et : Option String := none
  is_open : Bool := true
  is_early_close : Bool := false
  holiday_name : Option String := none
  notes : String := ""
deriving DecidableEq

/-- Market hours response schema from src/app/models.py.  The date and
the UTC instants are day numbers / instant numbers rather than ISO
strings; the ISO rendering is an injective formatting step outside the
logic under proof. -/
structure MarketHoursResponse where
  date : Nat
  open_time_utc : Option Nat
  close_time_utc : Option Nat
  is_open : Bool
  is_early_close : Bool
  notes : String
  status : MarketStatus
deriving DecidableEq

/-- Next market event response from src/app/models.py.  The
time_until_seconds field is an Int, as the Python computation
int((event - now).total_seconds()) can in principle be negative. -/
structure NextEvent where
  event_type : String
  event_time_utc : Nat
  time_until_seconds : Int
  next_date : Nat
  is_early_close : Bool
  notes : String
deriving DecidableEq

/-- The calendar store interface db.get_market_day from
src/app/database.py: point lookup by date, none when no row exists. -/
def Store : Type := Nat → Option MarketDay

/-- MarketHoursLogic.et_to_utc from src/app/business_logic.py.  The
Python signature takes the string directly; callers pass the possibly
null model field, and a null makes strptime raise TypeError, so the
null check is folded in here: none models either exception. -/
def et_to_utc (date_obj : Nat) (time_str : Option String) : Option Nat :=
  match time_str with
  | none => none
  | some s =>
    match parseTimeStr s with
    | none => none
    | some t => some (date_obj * 86400 + t + etOffsetSecs date_obj)

/-- The synthetic default MarketDay built inside
get_market_hours_for_date for a weekday with no stored record
(src/app/business_logic.py lines 42-49). -/
def defaultMarketDay (target_date : Nat) : MarketDay :=
  { date := target_date
    open_time_et := some "09:30:00"
    close_time_et := some "16:00:00"
    is_open := true
    is_early_close := false
    holiday_name := none
    notes := "Regular trading hours (estimated)" }

/-- The record get_market_hours_for_date works with after the
default-when-absent step (src/app/business_logic.py lines 32-49): a
stored record passes through; with no stored record, a weekday gets
the synthetic default and a weekend date stays absent (the Python code
sets local variables notes and is_open in that branch but never builds
a MarketDay, so market_day remains None). -/
def resolvedRecord (store : Store) (target_date : Nat) : Option MarketDay :=
  match store target_date with
  | some md => some md
  | none =>
    if 5 ≤ weekday target_date then none
    else some (defaultMarketDay target_date)

/-- The notes of the closed-day response branch
(src/app/business_logic.py lines 76-79): the generic record notes, or
"Market closed" when no record exists, overridden by the holiday label
when holiday_name is truthy (in Python an empty string is falsy, hence
the empty-string test). -/
def closedNotes (mdOpt : Option MarketDay) : String :=
  match mdOpt with
  | none => "Market closed"
  | some md =>
    match md.holiday_name with
    | some h => if h = "" then md.notes else "Market closed for " ++ h
    | none => md.notes

/-- The closed-day response (src/app/business_logic.py lines 81-89). -/
def closedResponse (target_date : Nat) (mdOpt : Option MarketDay) : MarketHoursResponse :=
  { date := target_date
    open_time_utc := none
    close_time_utc := none
    is_open := false
    is_early_close := false
    notes := closedNotes mdOpt
    status := MarketStatus.CLOSED }

/-- MarketHoursLogic.get_market_hours_for_date from
src/app/business_logic.py (lines 30-89), with the current instant
datetime.now(UTC) passed explicitly as now.  A none result models a
raised exception (time parsing of a stored open record failed). -/
def get_market_hours_for_date (store : Store) (target_date : Nat) (now : Nat) :
    Option MarketHoursResponse :=
  match resolvedRecord store target_date with
  | some md =>
    if md.is_open then
      match et_to_utc target_date md.open_time_et, et_to_utc target_date md.close_time_et with
      | some open_utc, some close_utc =>
        some { date := target_date
               open_time_utc := some open_utc
               close_time_utc := some close_utc
               is_open := true
               is_early_close := md.is_early_close
               notes := md.notes
               status :=
                 if now / 86400 = target_date then
                   if now < open_utc then MarketStatus.CLOSED
                   else if close_utc < now then MarketStatus.CLOSED
                   else if md.is_early_close then MarketStatus.EARLY_CLOSE
                   else MarketStatus.OPEN
                 else MarketStatus.CLOSED }
      | _, _ => none
    else some (closedResponse target_date (some md))
  | none => some (closedResponse target_date none)

/-- MarketHoursLogic.is_market_open from src/app/business_logic.py
(lines 92-109), with the instant dt explicit.  none models a raised
exception. -/
def is_market_open (store : Store) (dt : Nat) : Option (Bool × String) :=
  let target_date := dt / 86400
  match store target_date with
  | none => some (false, "Market closed")
  | some md =>
    if md.is_open then
      match et_to_utc target_date md.open_time_et, et_to_utc target_date md.close_time_et with
      | some open_utc, some close_utc =>
        if open_utc ≤ dt ∧ dt ≤ close_utc then some (true, "Market open")
        else some (false, "Outside trading hours")
      | _, _ => none
    else some (false, "Market closed")

/-- The forward scan loop of next_market_event
(src/app/business_logic.py lines 146-159): for the given remaining
iteration count, look day by day for a stored open record and return
its open event; the inner none is the loop running out (Python falls
through to return None), the outer none a raised exception. -/
def findNextOpen (store : Store) (now : Nat) : Nat → Nat → Option (Option NextEvent)
  | _, 0 => some none
  | search_date, k + 1 =>
    match store search_date with
    | some md =>
      if md.is_open then
        match et_to_utc search_date md.open_time_et with
        | some open_utc =>
          some (some { event_type := "open"
                       event_time_utc := open_utc
                       time_until_seconds := (open_utc : Int) - (now : Int)
                       next_date := search_date
                       is_early_close := md.is_early_close
                       notes := md.notes })
        | none => none
      else findNextOpen store now (search_date + 1) k
    | none => findNextOpen store now (search_date + 1) k

/-- MarketHoursLogic.next_market_event from src/app/business_logic.py
(lines 112-161), with now explicit.  Result: some (some ev) an event,
some none the Python None after the 30-day scan is exhausted, none a
raised exception. -/
def next_market_event (store : Store) (now : Nat) : Option (Option NextEvent) :=
  let today := now / 86400
  match store today with
  | some md =>
    if md.is_open then
      match et_to_utc today md.open_time_et, et_to_utc today md.close_time_et with
      | some open_utc, some close_utc =>
        if now < open_utc then
          some (some { event_type := "open"
                       event_time_utc := open_utc
                       time_until_seconds := (open_utc : Int) - (now : Int)
                       next_date := today
                       is_early_close := md.is_early_close
                       notes := md.notes })
        else if now < close_utc then
          some (some { event_type := "close"
                       event_time_utc := close_utc
                       time_until_seconds := (close_utc : Int) - (now : Int)
                       next_date := today
                       is_early_close := md.is_early_close
                       notes := md.notes })
        else findNextOpen store now (today + 1) 30
      | _, _ => none
    else findNextOpen store now (today + 1) 30
  | none => findNextOpen store now (today + 1) 30

/-- The while loop of get_week_schedule (src/app/business_logic.py
lines 171-177), by remaining iteration count; the loop body resolves
one date and appends. -/
def scheduleLoop (store : Store) (now : Nat) : Nat → Nat → Option (List MarketHoursResponse)
  | _, 0 => some []
  | current, k + 1 =>
    match get_market_hours_for_date store current now with
    | some r =>
      match scheduleLoop store now (current + 1) k with
      | some rest => some (r :: rest)
      | none => none
    | none => none

/-- MarketHoursLogic.get_week_schedule from src/app/business_logic.py
(lines 164-178), with now explicit.  The Python loop runs current from
start_date while current is at most end_date = start_date + 6, i.e.
end_date + 1 - start_date = 7 iterations. -/
def get_week_schedule (store : Store) (start_date : Nat) (now : Nat) :
    Option (List MarketHoursResponse) :=
  let end_date := start_date + 6
  scheduleLoop store now start_date (end_date + 1 - start_date)

/-- MarketHoursScraper.KNOWN_HOLIDAYS_2024_2025 from src/app/scraper.py
(lines 22-44), keyed by day number.  The string escape \x27 is the
apostrophe character. -/
def KNOWN_HOLIDAYS_2024_2025 : List (Nat × String) :=
  [ (mkDate 2024 1 1, "New Year\x27s Day")
  , (mkDate 2024 1 15, "Martin Luther King Jr. Day")
  , (mkDate 2024 2 19, "Presidents\x27 Day")
  , (mkDate 2024 3 29, "Good Friday")
  , (mkDate 2024 5 27, "Memorial Day")
  , (mkDate 2024 6 19, "Juneteenth")
  , (mkDate 2024 7 4, "Independence Day")
  , (mkDate 2024 9 2, "Labor Day")
  , (mkDate 2024 11 28, "Thanksgiving")
  , (mkDate 2024 12 25, "Christmas")
  , (mkDate 2025 1 1, "New Year\x27s Day")
  , (mkDate 2025 1 20, "Martin Luther King Jr. Day")
  , (mkDate 2025 2 17, "Presidents\x27 Day")
  , (mkDate 2025 4 18, "Good Friday")
  , (mkDate 2025 5 26, "Memorial Day")
  , (mkDate 2025 6 19, "Juneteenth")
  , (mkDate 2025 7 4, "Independence Day")
  , (mkDate 2025 9 1, "Labor Day")
  , (mkDate 2025 11 27, "Thanksgiving")
  , (mkDate 2025 12 25, "Christmas") ]

/-- MarketHoursScraper.EARLY_CLOSE_DATES_2024_2025 from
src/app/scraper.py (lines 47-55). -/
def EARLY_CLOSE_DATES_2024_2025 : List (Nat × String) :=
  [ (mkDate 2024 7 3, "Day before Independence Day")
  , (mkDate 2024 11 29, "Day after Thanksgiving")
  , (mkDate 2024 12 24, "Christmas Eve")
  , (mkDate 2025 7 3, "Day before Independence Day")
  , (mkDate 2025 11 28, "Day after Thanksgiving")
  , (mkDate 2025 12 24, "Christmas Eve") ]

/-- The per-date classification body of generate_market_days
(src/app/scraper.py lines 124-158), with the holiday and early-close
tables (read from class attributes in Python) as parameters: weekend
first, then holiday-table membership, then early-close-table
membership, else a regular trading day. -/
def mkMarketDay (holidays early_closes : List (Nat × String)) (current : Nat) : MarketDay :=
  if 5 ≤ weekday current then
    { date := current
      open_time_et := none
      close_time_et := none
      is_open := false
      is_early_close := false
      holiday_name := none
      notes := "Weekend" }
  else
    match holidays.lookup current with
    | some h =>
      { date := current
        open_time_et := none
        close_time_et := none
        is_open := false
        is_early_close := false
        holiday_name := some h
        notes := "Market closed for " ++ h }
    | none =>
      match early_closes.lookup current with
      | some n =>
        { date := current
          open_time_et := some "09:30:00"
          close_time_et := some "13:00:00"
          is_open := true
          is_early_close := true
          holiday_name := none
          notes := n }
      | none =>
        { date := current
          open_time_et := some "09:30:00"
          close_time_et := some "16:00:00"
          is_open := true
          is_early_close := false
          holiday_name := none
          notes := "Regular trading hours" }

/-- The while loop of generate_market_days (src/app/scraper.py lines
121-161) by remaining iteration count. -/
def genLoop (holidays early_closes : List (Nat × String)) : Nat → Nat → List MarketDay
  | _, 0 => []
  | current, k + 1 =>
    mkMarketDay holidays early_closes current ::
      genLoop holidays early_closes (current + 1) k

/-- MarketHoursScraper.generate_market_days from src/app/scraper.py
(lines 118-162): the loop runs current from start_date while current
is at most end_date, i.e. end_date + 1 - start_date iterations, with
the fixed class tables. -/
def generate_market_days (start_date end_date : Nat) : List MarketDay :=
  genLoop KNOWN_HOLIDAYS_2024_2025 EARLY_CLOSE_DATES_2024_2025
    start_date (end_date + 1 - start_date)

/-- A store holding exactly one record: the one the calendar generator
produces for that date.  Used for concrete scenarios. -/
def singletonGenStore (d0 : Nat) : Store := fun d =>
  if d = d0 then
    some (mkMarketDay KNOWN_HOLIDAYS_2024_2025 EARLY_CLOSE_DATES_2024_2025 d0)
  else none

/-- The empty store: no record for any date. -/
def emptyStore : Store := fun _ => none

/-- Well-formedness of a store: every stored record marked open
carries time strings that the et_to_utc conversion accepts (both
present and in HH:MM:SS form).  This is the implicit precondition
under which the time-parsing step of the read operations never
raises. -/
def WFStore (store : Store) : Prop :=
  ∀ d md, store d = some md → md.is_open = true →
    (et_to_utc d md.open_time_et).isSome = true ∧
    (et_to_utc d md.close_time_et).isSome = true

/-- Whether the store holds a record marked open for day d (the
condition market_day and market_day.is_open tested by the scan loop of
next_market_event). -/
def isOpenDay (store : Store) (d : Nat) : Bool :=
  match store d with
  | some md => md.is_open
  | none => false

/-- A store holding one record that is marked open but carries no time
strings — a shape the MarketDay model permits, on which the
time-parsing step raises. -/
def badOpenStore : Store := fun d =>
  if d = mkDate 2025 12 2 then
    some { date := mkDate 2025 12 2
           open_time_et := none
           close_time_et := none
           is_open := true
           is_early_close := false
           holiday_name := none
           notes := "" }
  else none

/-- Helper: converting a string that parseTimeStr accepts always
yields an instant. -/
theorem et_to_utc_some_isSome (d : Nat) (s : String) (t : Nat)
    (h : parseTimeStr s = some t) : (et_to_utc d (some s)).isSome = true := by
  simp [et_to_utc, h]

/-- Helper: any record the generator classification marks open carries
time strings that et_to_utc accepts (09:30:00 with 13:00:00 or
16:00:00). -/
theorem mkMarketDay_WF (hol ec : List (Nat × String)) (d e : Nat)
    (ho : (mkMarketDay hol ec d).is_open = true) :
    (et_to_utc e (mkMarketDay hol ec d).open_time_et).isSome = true ∧
    (et_to_utc e (mkMarketDay hol ec d).close_time_et).isSome = true := by
  unfold mkMarketDay at ho ⊢
  split_ifs at ho ⊢ with hw
  · cases hh : hol.lookup d with
    | some h =>
      rw [hh] at ho
      exact Bool.noConfusion ho
    | none =>
      cases he : ec.lookup d with
      | some n =>
        exact ⟨et_to_utc_some_isSome e "09:30:00" 34200 rfl,
               et_to_utc_some_isSome e "13:00:00" 46800 rfl⟩
      | none =>
        exact ⟨et_to_utc_some_isSome e "09:30:00" 34200 rfl,
               et_to_utc_some_isSome e "16:00:00" 57600 rfl⟩

/-- Helper: a store holding one generated record is well-formed. -/
theorem singletonGenStore_WF (d0 : Nat) : WFStore (singletonGenStore d0) := by
  intro d md hmd ho
  unfold singletonGenStore at hmd
  split at hmd
  · injection hmd with h
    subst h
    exact mkMarketDay_WF _ _ d0 d ho
  · exact absurd hmd (by simp)

/-- C1: for a stored trading-day record on date d whose time strings
convert to UTC bounds T0 and T1, the resolver status is CLOSED exactly
when the instant is strictly before T0 or strictly after T1 (for an
instant whose UTC date is d); at now = T0 or now = T1 the status is
not CLOSED; strictly inside the range the status is EARLY_CLOSE for an
early-close record and OPEN otherwise; and for an instant whose UTC
date differs from d the status is CLOSED. -/
theorem c1_resolve_status_classification (store : Store) (d now : Nat) (md : MarketDay)
    (hmd : store d = some md) (ho : md.is_open = true) (T0 T1 : Nat)
    (hT0 : et_to_utc d md.open_time_et = some T0)
    (hT1 : et_to_utc d md.close_time_et = some T1) :
    ∃ r, get_market_hours_for_date store d now = some r ∧
      (now / 86400 = d → (r.status = MarketStatus.CLOSED ↔ (now < T0 ∨ T1 < now))) ∧
      (now / 86400 = d → T0 ≤ now → now ≤ T1 →
        r.status = if md.is_early_close then MarketStatus.EARLY_CLOSE else MarketStatus.OPEN) ∧
      (now / 86400 = d → T0 ≤ T1 → (now = T0 ∨ now = T1) → r.status ≠ MarketStatus.CLOSED) ∧
      (now / 86400 ≠ d → r.status = MarketStatus.CLOSED) := by
  refine ⟨{ date := d
            open_time_utc := some T0
            close_time_utc := some T1
            is_open := true
            is_early_close := md.is_early_close
            notes := md.notes
            status := if now / 86400 = d then
                if now < T0 then MarketStatus.CLOSED
                else if T1 < now then MarketStatus.CLOSED
                else if md.is_early_close then MarketStatus.EARLY_CLOSE
                else MarketStatus.OPEN
              else MarketStatus.CLOSED }, ?_, ?_, ?_, ?_, ?_⟩
  · simp only [get_market_hours_for_date, resolvedRecord, hmd, ho, hT0, hT1, if_true]
  · intro hdate
    simp only [hdate, if_true, eq_self_iff_true]
    split_ifs with h1 h2 h3 <;> simp <;> omega
  · intro hdate h1 h2
    simp only [hdate, if_true, eq_self_iff_true]
    rw [if_neg (by omega), if_neg (by omega)]
  · intro hdate hle hb
    simp only [hdate, if_true, eq_self_iff_true]
    split_ifs with h1 h2 h3 <;> simp <;> omega
  · intro hdate
    simp only [if_neg hdate]

/-- Witness for C1: the generated regular record for Monday 2025-12-01
(UTC bounds 14:30Z and 21:00Z), resolved at 15:00 UTC that day, has
status OPEN. -/
theorem c1_witness :
    ∃ r, get_market_hours_for_date (singletonGenStore (mkDate 2025 12 1)) (mkDate 2025 12 1)
        (mkDate 2025 12 1 * 86400 + 15 * 3600) = some r ∧ r.status = MarketStatus.OPEN := by
  obtain ⟨r, hr, hiff, hin, hb, hne⟩ :=
    c1_resolve_status_classification (singletonGenStore (mkDate 2025 12 1)) (mkDate 2025 12 1)
      (mkDate 2025 12 1 * 86400 + 15 * 3600)
      (mkMarketDay KNOWN_HOLIDAYS_2024_2025 EARLY_CLOSE_DATES_2024_2025 (mkDate 2025 12 1))
      (by decide) (by decide)
      (mkDate 2025 12 1 * 86400 + 52200) (mkDate 2025 12 1 * 86400 + 75600)
      (by decide) (by decide)
  refine ⟨r, hr, ?_⟩
  rw [hin (by decide) (by decide) (by decide), if_neg (by decide)]

/-- C3: is_market_open looks up only the date of the given instant:
with no stored record, or a record marked non-trading, it returns
(false, "Market closed"); with a stored open record whose bounds are
T0 and T1 it returns (true, "Market open") when T0 <= t <= T1
(inclusive both ends) and (false, "Outside trading hours") otherwise;
and over a well-formed store the (true, "Market open") result occurs
exactly when such an in-range stored open record exists. -/
theorem c3_is_market_open_classification (store : Store) (t : Nat) :
    (store (t / 86400) = none → is_market_open store t = some (false, "Market closed")) ∧
    (∀ md, store (t / 86400) = some md → md.is_open = false →
      is_market_open store t = some (false, "Market closed")) ∧
    (∀ md T0 T1, store (t / 86400) = some md → md.is_open = true →
      et_to_utc (t / 86400) md.open_time_et = some T0 →
      et_to_utc (t / 86400) md.close_time_et = some T1 →
      ((T0 ≤ t ∧ t ≤ T1) → is_market_open store t = some (true, "Market open")) ∧
      (¬(T0 ≤ t ∧ t ≤ T1) → is_market_open store t = some (false, "Outside trading hours"))) ∧
    (WFStore store →
      (is_market_open store t = some (true, "Market open") ↔
        ∃ md T0 T1, store (t / 86400) = some md ∧ md.is_open = true ∧
          et_to_utc (t / 86400) md.open_time_et = some T0 ∧
          et_to_utc (t / 86400) md.close_time_et = some T1 ∧ T0 ≤ t ∧ t ≤ T1)) := by
  refine ⟨?_, ?_, ?_, ?_⟩
  · intro h
    simp only [is_market_open, h]
  · intro md hmd ho
    simp only [is_market_open, hmd, ho]
    simp
  · intro md T0 T1 hmd ho hT0 hT1
    constructor
    · intro hin
      simp only [is_market_open, hmd, ho, hT0, hT1, if_true, if_pos hin]
    · intro hout
      simp only [is_market_open, hmd, ho, hT0, hT1, if_true, if_neg hout]
  · intro hWF
    constructor
    · intro heq
      cases hmd : store (t / 86400) with
      | none => simp only [is_market_open, hmd] at heq; simp at heq
      | some md =>
        by_cases ho : md.is_open = true
        · obtain ⟨h1, h2⟩ := hWF (t / 86400) md hmd ho
          obtain ⟨T0, hT0⟩ := Option.isSome_iff_exists.mp h1
          obtain ⟨T1, hT1⟩ := Option.isSome_iff_exists.mp h2
          by_cases hin : T0 ≤ t ∧ t ≤ T1
          · exact ⟨md, T0, T1, rfl, ho, hT0, hT1, hin.1, hin.2⟩
          · simp only [is_market_open, hmd, ho, hT0, hT1, if_true, if_neg hin] at heq
            simp at heq
        · simp only [is_market_open, hmd, Bool.not_eq_true] at heq ho
          rw [ho] at heq
          simp at heq
    · rintro ⟨md, T0, T1, hmd, ho, hT0, hT1, h1, h2⟩
      simp only [is_market_open, hmd, ho, hT0, hT1, if_true, if_pos (And.intro h1 h2)]

/-- Witness for C3: on the generated regular record for 2025-12-01 the
check at 15:00 UTC (10:00 ET) answers (true, "Market open"). -/
theorem c3_witness :
    is_market_open (singletonGenStore (mkDate 2025 12 1)) (mkDate 2025 12 1 * 86400 + 15 * 3600) =
      some (true, "Market open") :=
  ((c3_is_market_open_classification (singletonGenStore (mkDate 2025 12 1))
      (mkDate 2025 12 1 * 86400 + 15 * 3600)).2.2.1
    (mkMarketDay KNOWN_HOLIDAYS_2024_2025 EARLY_CLOSE_DATES_2024_2025 (mkDate 2025 12 1))
    (mkDate 2025 12 1 * 86400 + 52200) (mkDate 2025 12 1 * 86400 + 75600)
    (by decide) (by decide) (by decide) (by decide)).1 (by decide)

/-- C10: over a store whose open records all carry convertible
HH:MM:SS time strings, the resolver and the open-now check never
raise (always return a result); the MarketDay type itself permits an
open record with absent times; and on a store holding such a record
both operations raise (return none). -/
theorem c10_parse_totality :
    (∀ store : Store, WFStore store → ∀ d now : Nat,
      (get_market_hours_for_date store d now).isSome = true) ∧
    (∀ store : Store, WFStore store → ∀ t : Nat,
      (is_market_open store t).isSome = true) ∧
    (∃ md : MarketDay, md.is_open = true ∧ md.open_time_et = none ∧ md.close_time_et = none) ∧
    get_market_hours_for_date badOpenStore (mkDate 2025 12 2) 0 = none ∧
    is_market_open badOpenStore (mkDate 2025 12 2 * 86400) = none := by
  refine ⟨?_, ?_, ?_, by decide, by decide⟩
  · intro store hWF d now
    unfold get_market_hours_for_date
    cases hres : resolvedRecord store d with
    | none => simp
    | some md =>
      by_cases ho : md.is_open = true
      · have hpar : (et_to_utc d md.open_time_et).isSome = true ∧
            (et_to_utc d md.close_time_et).isSome = true := by
          unfold resolvedRecord at hres
          cases hs : store d with
          | some md' =>
            rw [hs] at hres
            injection hres with h
            exact h ▸ hWF d md' hs (h ▸ ho)
          | none =>
            rw [hs] at hres
            by_cases hw : 5 ≤ weekday d
            · rw [if_pos hw] at hres; exact absurd hres (by simp)
            · rw [if_neg hw] at hres
              injection hres with h
              rw [← h]
              constructor
              · simp [defaultMarketDay, et_to_utc,
                  show parseTimeStr "09:30:00" = some 34200 from rfl]
              · simp [defaultMarketDay, et_to_utc,
                  show parseTimeStr "16:00:00" = some 57600 from rfl]
        obtain ⟨T0, hT0⟩ := Option.isSome_iff_exists.mp hpar.1
        obtain ⟨T1, hT1⟩ := Option.isSome_iff_exists.mp hpar.2
        simp [ho, hT0, hT1]
      · simp at ho
        simp [ho]
  · intro store hWF t
    unfold is_market_open
    cases hs : store (t / 86400) with
    | none => simp [hs]
    | some md =>
      by_cases ho : md.is_open = true
      · obtain ⟨h1, h2⟩ := hWF (t / 86400) md hs ho
        obtain ⟨T0, hT0⟩ := Option.isSome_iff_exists.mp h1
        obtain ⟨T1, hT1⟩ := Option.isSome_iff_exists.mp h2
        by_cases hin : T0 ≤ t ∧ t ≤ T1 <;> simp [hs, ho, hT0, hT1, hin]
      · simp at ho
        simp [hs, ho]
  · exact ⟨{ date := 0, open_time_et := none, close_time_et := none, is_open := true,
             is_early_close := false, holiday_name := none, notes := "" },
           rfl, rfl, rfl⟩

/-- Witness for C10: the singleton generated store for 2025-12-01 is
well-formed, and the resolver returns a result on it. -/
theorem c10_witness :
    (get_market_hours_for_date (singletonGenStore (mkDate 2025 12 1)) (mkDate 2025 12 1)
      0).isSome = true :=
  c10_parse_totality.1 (singletonGenStore (mkDate 2025 12 1))
    (singletonGenStore_WF (mkDate 2025 12 1)) (mkDate 2025 12 1) 0

/-- C2: on a weekend date with no stored record the resolver returns
closed, both UTC bounds absent, status CLOSED — but its notes are
"Market closed", not "Weekend": the Python weekend-default branch
assigns notes = "Weekend" to a local variable that is never read,
because no MarketDay is built there, so the response is produced by
the no-record arm of the closed branch.  2025-11-29 is a Saturday. -/
theorem c2_weekend_no_record_notes_market_closed :
    weekday (mkDate 2025 11 29) = 5 ∧
    get_market_hours_for_date emptyStore (mkDate 2025 11 29) (mkDate 2025 11 29 * 86400) =
      some { date := mkDate 2025 11 29
             open_time_utc := none
             close_time_utc := none
             is_open := false
             is_early_close := false
             notes := "Market closed"
             status := MarketStatus.CLOSED } ∧
    ("Market closed" : String) ≠ "Weekend" := by
  refine ⟨by decide, by decide, by decide⟩

/-- C6 counterexample: with the record the generator produces for
2025-11-28 (early close, 09:30-13:00 ET) in the store, resolving
2025-11-28 at the instant 2025-11-28T17:30:00Z yields status
EARLY_CLOSE, not CLOSED as claimed — 17:30 UTC is 12:30 EST, still
before the 13:00 EST (18:00 UTC) close. -/
theorem c6_counterexample_1730_utc_not_closed :
    (get_market_hours_for_date (singletonGenStore (mkDate 2025 11 28)) (mkDate 2025 11 28)
        (mkDate 2025 11 28 * 86400 + 17 * 3600 + 30 * 60)).map MarketHoursResponse.status =
      some MarketStatus.EARLY_CLOSE ∧
    MarketStatus.EARLY_CLOSE ≠ MarketStatus.CLOSED := by
  refine ⟨by decide, by decide⟩

/-- C6 amended: 2025-11-28 (day after Thanksgiving) is generated as an
open early-close day with local hours 09:30-13:00 ET; resolving it
with the generated record gives UTC bounds 14:30Z and 18:00Z (EST,
UTC-5); the status is EARLY_CLOSE at 15:00 UTC and still EARLY_CLOSE
at 17:30 UTC (before the 18:00 UTC close), and CLOSED at 18:30 UTC;
the Eastern offset used is date-dependent (EDT on 2025-07-03, EST on
2025-11-28), not a constant. -/
theorem c6_amended_early_close_day :
    generate_market_days (mkDate 2025 11 28) (mkDate 2025 11 28) =
      [ { date := mkDate 2025 11 28
          open_time_et := some "09:30:00"
          close_time_et := some "13:00:00"
          is_open := true
          is_early_close := true
          holiday_name := none
          notes := "Day after Thanksgiving" } ] ∧
    (get_market_hours_for_date (singletonGenStore (mkDate 2025 11 28)) (mkDate 2025 11 28)
        (mkDate 2025 11 28 * 86400 + 15 * 3600)) =
      some { date := mkDate 2025 11 28
             open_time_utc := some (mkDate 2025 11 28 * 86400 + 14 * 3600 + 30 * 60)
             close_time_utc := some (mkDate 2025 11 28 * 86400 + 18 * 3600)
             is_open := true
             is_early_close := true
             notes := "Day after Thanksgiving"
             status := MarketStatus.EARLY_CLOSE } ∧
    (get_market_hours_for_date (singletonGenStore (mkDate 2025 11 28)) (mkDate 2025 11 28)
        (mkDate 2025 11 28 * 86400 + 17 * 3600 + 30 * 60)).map MarketHoursResponse.status =
      some MarketStatus.EARLY_CLOSE ∧
    (get_market_hours_for_date (singletonGenStore (mkDate 2025 11 28)) (mkDate 2025 11 28)
        (mkDate 2025 11 28 * 86400 + 18 * 3600 + 30 * 60)).map MarketHoursResponse.status =
      some MarketStatus.CLOSED ∧
    etOffsetSecs (mkDate 2025 7 3) = 4 * 3600 ∧
    etOffsetSecs (mkDate 2025 11 28) = 5 * 3600 := by
  refine ⟨by decide, by decide, by decide, by decide, by decide, by decide⟩

/-- C7: resolving a weekday with no stored record yields exactly the
explicit default: open, 09:30-16:00 ET converted to UTC bounds for
that date, not an early close, notes "Regular trading hours
(estimated)".  (The resolver is a pure function of the store — the
defaulted record is not written anywhere.) -/
theorem c7_weekday_default (store : Store) (d now : Nat)
    (hwd : weekday d < 5) (habs : store d = none) :
    ∃ r, get_market_hours_for_date store d now = some r ∧
      r.date = d ∧
      r.open_time_utc = et_to_utc d (some "09:30:00") ∧
      r.close_time_utc = et_to_utc d (some "16:00:00") ∧
      r.is_open = true ∧
      r.is_early_close = false ∧
      r.notes = "Regular trading hours (estimated)" := by
  have h930 : parseTimeStr "09:30:00" = some 34200 := rfl
  have h1600 : parseTimeStr "16:00:00" = some 57600 := rfl
  simp only [get_market_hours_for_date, resolvedRecord, habs,
    if_neg (Nat.not_le.mpr hwd), defaultMarketDay, et_to_utc, h930, h1600]
  exact ⟨_, rfl, rfl, rfl, rfl, rfl, rfl, rfl⟩

/-- Witness for C7 at a concrete input: 2025-12-01 is a Monday and the
empty store has no record for it. -/
theorem c7_witness :
    weekday (mkDate 2025 12 1) < 5 ∧
    emptyStore (mkDate 2025 12 1) = none ∧
    ∃ r, get_market_hours_for_date emptyStore (mkDate 2025 12 1) 0 = some r ∧
      r.date = mkDate 2025 12 1 ∧
      r.open_time_utc = et_to_utc (mkDate 2025 12 1) (some "09:30:00") ∧
      r.close_time_utc = et_to_utc (mkDate 2025 12 1) (some "16:00:00") ∧
      r.is_open = true ∧
      r.is_early_close = false ∧
      r.notes = "Regular trading hours (estimated)" :=
  ⟨by decide, rfl, c7_weekday_default emptyStore (mkDate 2025 12 1) 0 (by decide) rfl⟩

/-- Helper: the generator loop produces one record per iteration. -/
theorem genLoop_length (hol ec : List (Nat × String)) :
    ∀ k current, (genLoop hol ec current k).length = k := by
  intro k
  induction k with
  | zero => intro current; rfl
  | succ n ih => intro current; simp [genLoop, ih]

/-- Helper: the i-th record of the generator loop is the
classification of the i-th date. -/
theorem genLoop_getElem (hol ec : List (Nat × String)) :
    ∀ k current i, i < k →
      (genLoop hol ec current k)[i]? = some (mkMarketDay hol ec (current + i)) := by
  intro k
  induction k with
  | zero => intro current i h; omega
  | succ n ih =>
    intro current i h
    cases i with
    | zero => simp [genLoop]
    | succ j =>
      have hj := ih (current + 1) j (by omega)
      rw [show current + (j + 1) = current + 1 + j by omega]
      simpa [genLoop] using hj

/-- Helper: every generated record carries its own date. -/
theorem mkMarketDay_date (hol ec : List (Nat × String)) (c : Nat) :
    (mkMarketDay hol ec c).date = c := by
  unfold mkMarketDay
  split_ifs with hw
  · rfl
  · cases hh : hol.lookup c with
    | some h => rfl
    | none =>
      cases he : ec.lookup c with
      | some n => rfl
      | none => rfl

/-- C4: for start <= end the generator is total and yields exactly one
record per date of the range in ascending order, classified
first-match-wins: weekends are closed with notes "Weekend" and no
holiday name regardless of the table contents (the tables are
quantified); otherwise a holiday-table date is closed with its name
and "Market closed for" notes; otherwise an early-close-table date is
open 09:30-13:00 with the early flag and the table notes; every
remaining date is open 09:30-16:00 with notes "Regular trading
hours".  The first conjunct ties generate_market_days to the loop with
the fixed class tables. -/
theorem c4_generator_classification (hol ec : List (Nat × String)) (s e : Nat) (hse : s ≤ e) :
    generate_market_days s e =
      genLoop KNOWN_HOLIDAYS_2024_2025 EARLY_CLOSE_DATES_2024_2025 s (e + 1 - s) ∧
    (genLoop hol ec s (e + 1 - s)).length = e - s + 1 ∧
    (∀ i, i < e - s + 1 →
      ∃ md, (genLoop hol ec s (e + 1 - s))[i]? = some md ∧
        md.date = s + i ∧
        (5 ≤ weekday (s + i) →
          md = { date := s + i, open_time_et := none, close_time_et := none,
                 is_open := false, is_early_close := false, holiday_name := none,
                 notes := "Weekend" }) ∧
        (weekday (s + i) < 5 → ∀ h, hol.lookup (s + i) = some h →
          md = { date := s + i, open_time_et := none, close_time_et := none,
                 is_open := false, is_early_close := false, holiday_name := some h,
                 notes := "Market closed for " ++ h }) ∧
        (weekday (s + i) < 5 → hol.lookup (s + i) = none → ∀ n, ec.lookup (s + i) = some n →
          md = { date := s + i, open_time_et := some "09:30:00", close_time_et := some "13:00:00",
                 is_open := true, is_early_close := true, holiday_name := none,
                 notes := n }) ∧
        (weekday (s + i) < 5 → hol.lookup (s + i) = none → ec.lookup (s + i) = none →
          md = { date := s + i, open_time_et := some "09:30:00", close_time_et := some "16:00:00",
                 is_open := true, is_early_close := false, holiday_name := none,
                 notes := "Regular trading hours" })) := by
  refine ⟨rfl, by rw [genLoop_length]; omega, ?_⟩
  intro i hi
  refine ⟨mkMarketDay hol ec (s + i), genLoop_getElem hol ec (e + 1 - s) s i (by omega),
    mkMarketDay_date hol ec (s + i), ?_, ?_, ?_, ?_⟩
  · intro hw
    unfold mkMarketDay
    rw [if_pos hw]
  · intro hw h hh
    unfold mkMarketDay
    rw [if_neg (by omega), hh]
  · intro hw hh n hn
    unfold mkMarketDay
    rw [if_neg (by omega), hh, hn]
  · intro hw hh hn
    unfold mkMarketDay
    rw [if_neg (by omega), hh, hn]

/-- Witness for C4: the 2025-11-27 .. 2025-11-30 range (4 days)
produces one record per date. -/
theorem c4_witness :
    (generate_market_days (mkDate 2025 11 27) (mkDate 2025 11 30)).length =
      mkDate 2025 11 30 - mkDate 2025 11 27 + 1 := by
  have h := c4_generator_classification KNOWN_HOLIDAYS_2024_2025 EARLY_CLOSE_DATES_2024_2025
    (mkDate 2025 11 27) (mkDate 2025 11 30) (by decide)
  rw [h.1]
  exact h.2.1

/-- Helper: every successful resolver result carries the target
date. -/
theorem resolve_date (store : Store) (d now : Nat) (r : MarketHoursResponse)
    (h : get_market_hours_for_date store d now = some r) : r.date = d := by
  unfold get_market_hours_for_date at h
  split at h
  · split at h
    · split at h
      · injection h with h
        rw [← h]
      · exact Option.noConfusion h
    · injection h with h
      rw [← h]
      rfl
  · injection h with h
    rw [← h]
    rfl

/-- Helper: the week-schedule loop, when it succeeds, returns one
resolver result per iterated date, in order. -/
theorem scheduleLoop_sound (store : Store) (now : Nat) :
    ∀ k current l, scheduleLoop store now current k = some l →
      l.length = k ∧
      ∀ i, i < k → ∃ r, l[i]? = some r ∧
        get_market_hours_for_date store (current + i) now = some r := by
  intro k
  induction k with
  | zero =>
    intro current l h
    injection h with h
    rw [← h]
    exact ⟨rfl, fun i hi => absurd hi (by omega)⟩
  | succ n ih =>
    intro current l h
    unfold scheduleLoop at h
    cases hr : get_market_hours_for_date store current now with
    | none => rw [hr] at h; exact Option.noConfusion h
    | some r =>
      rw [hr] at h
      cases hrest : scheduleLoop store now (current + 1) n with
      | none => rw [hrest] at h; exact Option.noConfusion h
      | some rest =>
        rw [hrest] at h
        injection h with h
        subst h
        obtain ⟨hlen, hidx⟩ := ih (current + 1) rest hrest
        refine ⟨by simp [hlen], ?_⟩
        intro i hi
        cases i with
        | zero => exact ⟨r, by simp, by simpa using hr⟩
        | succ j =>
          obtain ⟨r', hr', hres'⟩ := hidx j (by omega)
          refine ⟨r', by simpa using hr', ?_⟩
          rw [show current + (j + 1) = current + 1 + j by omega]
          exact hres'

/-- C9: a successful week schedule has exactly 7 entries; the i-th
entry is the resolver result for start_date + i (pure composition, no
other logic), and carries that date, so the dates are strictly
consecutive from start_date through start_date + 6. -/
theorem c9_week_schedule (store : Store) (start_date now : Nat) (l : List MarketHoursResponse)
    (h : get_week_schedule store start_date now = some l) :
    l.length = 7 ∧
    ∀ i, i < 7 → ∃ r, l[i]? = some r ∧
      get_market_hours_for_date store (start_date + i) now = some r ∧
      r.date = start_date + i := by
  simp only [get_week_schedule] at h
  rw [show start_date + 6 + 1 - start_date = 7 by omega] at h
  obtain ⟨hlen, hidx⟩ := scheduleLoop_sound store now 7 start_date l h
  refine ⟨hlen, ?_⟩
  intro i hi
  obtain ⟨r, h1, h2⟩ := hidx i hi
  exact ⟨r, h1, h2, resolve_date store (start_date + i) now r h2⟩

/-- Witness for C9: over the empty store the week starting Monday
2025-12-01 resolves to exactly 7 entries. -/
theorem c9_witness :
    ∃ l, get_week_schedule emptyStore (mkDate 2025 12 1) 0 = some l ∧ l.length = 7 := by
  cases hval : get_week_schedule emptyStore (mkDate 2025 12 1) 0 with
  | none => exact absurd hval (by decide)
  | some l => exact ⟨l, rfl, (c9_week_schedule emptyStore (mkDate 2025 12 1) 0 l hval).1⟩

/-- Helper: a successful time conversion lands on or after the local
midnight of its date. -/
theorem et_to_utc_lower_bound (d : Nat) (ts : Option String) (T : Nat)
    (h : et_to_utc d ts = some T) : d * 86400 ≤ T := by
  unfold et_to_utc at h
  split at h
  · exact Option.noConfusion h
  · split at h
    · exact Option.noConfusion h
    · injection h with h
      omega

/-- Helper: any event the forward scan returns comes from a stored
open record on a day at or after the scan start, with the open instant
as the event time and the exact difference as time_until_seconds. -/
theorem findNextOpen_event (store : Store) (now : Nat) :
    ∀ k start ev, findNextOpen store now start k = some (some ev) →
      ∃ d md, start ≤ d ∧ store d = some md ∧ md.is_open = true ∧
        et_to_utc d md.open_time_et = some ev.event_time_utc ∧
        ev.next_date = d ∧ ev.event_type = "open" ∧
        ev.time_until_seconds = (ev.event_time_utc : Int) - (now : Int) := by
  intro k
  induction k with
  | zero =>
    intro start ev h
    injection h with h
    exact Option.noConfusion h
  | succ n ih =>
    intro start ev h
    unfold findNextOpen at h
    split at h
    · rename_i md heq
      split at h
      · rename_i ho
        split at h
        · rename_i T0 hp
          injection h with h
          injection h with h
          rw [← h]
          exact ⟨start, md, le_refl start, heq, ho, hp, rfl, rfl, rfl⟩
        · exact Option.noConfusion h
      · rename_i ho
        obtain ⟨d, md2, hd, rest⟩ := ih (start + 1) ev h
        exact ⟨d, md2, by omega, rest⟩
    · obtain ⟨d, md2, hd, rest⟩ := ih (start + 1) ev h
      exact ⟨d, md2, by omega, rest⟩

/-- C8: whenever next_market_event returns an event, that event is not
strictly in the past relative to the instant it was computed from, and
time_until_seconds is exactly the difference event - now in whole
seconds, hence non-negative.  (Instants are whole seconds, so the
Python int truncation of the non-negative difference is the
difference itself.) -/
theorem c8_next_event_not_past (store : Store) (now : Nat) (ev : NextEvent)
    (h : next_market_event store now = some (some ev)) :
    ev.time_until_seconds = (ev.event_time_utc : Int) - (now : Int) ∧
    (now : Int) ≤ (ev.event_time_utc : Int) ∧
    0 ≤ ev.time_until_seconds := by
  have hscan : findNextOpen store now (now / 86400 + 1) 30 = some (some ev) →
      ev.time_until_seconds = (ev.event_time_utc : Int) - (now : Int) ∧
      (now : Int) ≤ (ev.event_time_utc : Int) ∧ 0 ≤ ev.time_until_seconds := by
    intro hsc
    obtain ⟨d, md, hd, hmd, ho, hT, hnd, het, htu⟩ := findNextOpen_event store now 30 _ ev hsc
    have hlb := et_to_utc_lower_bound d md.open_time_et ev.event_time_utc hT
    have hmod := Nat.div_add_mod now 86400
    have h1 : now % 86400 < 86400 := Nat.mod_lt _ (by omega)
    have h2 : (now / 86400 + 1) * 86400 ≤ d * 86400 := Nat.mul_le_mul_right _ hd
    have hlt : now < ev.event_time_utc := by omega
    refine ⟨htu, by exact_mod_cast le_of_lt hlt, ?_⟩
    rw [htu]
    omega
  simp only [next_market_event] at h
  split at h
  · rename_i md hs
    split at h
    · rename_i ho
      split at h
      · rename_i T0 T1 hp hq
        split at h
        · rename_i h1
          injection h with h
          injection h with h
          rw [← h]
          refine ⟨rfl, ?_, ?_⟩
          · show (now : Int) ≤ (T0 : Int)
            exact_mod_cast le_of_lt h1
          · show (0 : Int) ≤ (T0 : Int) - (now : Int)
            omega
        · rename_i h1
          split at h
          · rename_i h2
            injection h with h
            injection h with h
            rw [← h]
            refine ⟨rfl, ?_, ?_⟩
            · show (now : Int) ≤ (T1 : Int)
              exact_mod_cast le_of_lt h2
            · show (0 : Int) ≤ (T1 : Int) - (now : Int)
              omega
          · exact hscan h
      · exact Option.noConfusion h
    · exact hscan h
  · exact hscan h

/-- Witness for C8: at midnight UTC before the generated regular
record for 2025-12-01, the next event exists and its countdown is
non-negative. -/
theorem c8_witness :
    ∃ ev, next_market_event (singletonGenStore (mkDate 2025 12 1)) (mkDate 2025 12 1 * 86400) =
        some (some ev) ∧ 0 ≤ ev.time_until_seconds := by
  cases hval : next_market_event (singletonGenStore (mkDate 2025 12 1)) (mkDate 2025 12 1 * 86400) with
  | none => exact absurd hval (by decide)
  | some o =>
    cases o with
    | none => exact absurd hval (by decide)
    | some ev =>
      exact ⟨ev, rfl, (c8_next_event_not_past (singletonGenStore (mkDate 2025 12 1))
        (mkDate 2025 12 1 * 86400) ev hval).2.2⟩

/-- Helper: the scan over a day with no open record advances one day
and spends one unit of the horizon. -/
theorem findNextOpen_succ_closed (store : Store) (now start n : Nat)
    (hclosed : isOpenDay store start = false) :
    findNextOpen store now start (n + 1) = findNextOpen store now (start + 1) n := by
  simp only [findNextOpen]
  unfold isOpenDay at hclosed
  cases hs : store start with
  | none => rfl
  | some md =>
    have hcl : md.is_open = false := by
      rw [hs] at hclosed
      exact hclosed
    simp [hcl]

/-- Helper: the scan stops at a stored open record with a convertible
open time and returns its open event. -/
theorem findNextOpen_succ_open (store : Store) (now start n : Nat) (md : MarketDay) (T0 : Nat)
    (hs : store start = some md) (ho : md.is_open = true)
    (hp : et_to_utc start md.open_time_et = some T0) :
    findNextOpen store now start (n + 1) =
      some (some { event_type := "open", event_time_utc := T0,
                   time_until_seconds := (T0 : Int) - (now : Int),
                   next_date := start, is_early_close := md.is_early_close,
                   notes := md.notes }) := by
  simp only [findNextOpen]
  simp [hs, ho, hp]

/-- Helper: the scan never reports exhaustion while its first day has
a stored open record (it returns an event or raises). -/
theorem findNextOpen_succ_open_ne_none (store : Store) (now start n : Nat) (md : MarketDay)
    (hs : store start = some md) (ho : md.is_open = true) :
    findNextOpen store now start (n + 1) ≠ some none := by
  intro h
  simp only [findNextOpen] at h
  split at h
  · rename_i md2 heq
    rw [hs] at heq
    injection heq with heq
    subst heq
    split at h
    · split at h
      · injection h with h
        exact Option.noConfusion h
      · exact Option.noConfusion h
    · rename_i ho2
      exact absurd ho ho2
  · rename_i heq
    rw [hs] at heq
    exact Option.noConfusion heq

/-- Helper: over a well-formed store the scan never raises. -/
theorem findNextOpen_isSome (store : Store) (hWF : WFStore store) (now : Nat) :
    ∀ k start, (findNextOpen store now start k).isSome = true := by
  intro k
  induction k with
  | zero => intro start; rfl
  | succ n ih =>
    intro start
    simp only [findNextOpen]
    cases hs : store start with
    | none => exact ih (start + 1)
    | some md =>
      by_cases ho : md.is_open = true
      · obtain ⟨p1, p2⟩ := hWF start md hs ho
        obtain ⟨T0, hT0⟩ := Option.isSome_iff_exists.mp p1
        simp [ho, hT0]
      · simp only [Bool.not_eq_true] at ho
        simp only [ho, Bool.false_eq_true, if_false]
        exact ih (start + 1)

/-- Helper: the scan reports exhaustion exactly when no scanned day
has a stored open record. -/
theorem findNextOpen_none_iff (store : Store) (now : Nat) :
    ∀ k start, findNextOpen store now start k = some none ↔
      ∀ j, j < k → isOpenDay store (start + j) = false := by
  intro k
  induction k with
  | zero =>
    intro start
    constructor
    · intro _ j hj
      omega
    · intro _
      rfl
  | succ n ih =>
    intro start
    by_cases hopen : isOpenDay store start = true
    · constructor
      · intro heq
        exfalso
        have hcopy := hopen
        unfold isOpenDay at hcopy
        cases hs : store start with
        | none => rw [hs] at hcopy; exact Bool.noConfusion hcopy
        | some md =>
          rw [hs] at hcopy
          exact findNextOpen_succ_open_ne_none store now start n md hs hcopy heq
      · intro hall
        exfalso
        have h0 := hall 0 (by omega)
        rw [Nat.add_zero] at h0
        rw [hopen] at h0
        exact Bool.noConfusion h0
    · simp only [Bool.not_eq_true] at hopen
      rw [findNextOpen_succ_closed store now start n hopen, ih (start + 1)]
      constructor
      · intro hall j hj
        cases j with
        | zero => simpa using hopen
        | succ i =>
          have := hall i (by omega)
          rw [show start + (i + 1) = start + 1 + i by omega]
          exact this
      · intro hall j hj
        have := hall (j + 1) (by omega)
        rw [show start + 1 + j = start + (j + 1) by omega]
        exact this

/-- Helper: the scan returns the open event of the first day in the
horizon that has a stored open record. -/
theorem findNextOpen_first (store : Store) (now : Nat) :
    ∀ j k start, j < k → (∀ i, i < j → isOpenDay store (start + i) = false) →
      ∀ md, store (start + j) = some md → md.is_open = true →
      ∀ T0, et_to_utc (start + j) md.open_time_et = some T0 →
      findNextOpen store now start k =
        some (some { event_type := "open", event_time_utc := T0,
                     time_until_seconds := (T0 : Int) - (now : Int),
                     next_date := start + j, is_early_close := md.is_early_close,
                     notes := md.notes }) := by
  intro j
  induction j with
  | zero =>
    intro k start hk hprev md hmd ho T0 hT0
    obtain ⟨n, rfl⟩ : ∃ n, k = n + 1 := ⟨k - 1, by omega⟩
    rw [Nat.add_zero] at hmd hT0 ⊢
    exact findNextOpen_succ_open store now start n md T0 hmd ho hT0
  | succ i ih =>
    intro k start hk hprev md hmd ho T0 hT0
    obtain ⟨n, rfl⟩ : ∃ n, k = n + 1 := ⟨k - 1, by omega⟩
    have h0 : isOpenDay store start = false := by simpa using hprev 0 (by omega)
    rw [findNextOpen_succ_closed store now start n h0]
    have hprev2 : ∀ i2, i2 < i → isOpenDay store (start + 1 + i2) = false := by
      intro i2 hi2
      rw [show start + 1 + i2 = start + (i2 + 1) by omega]
      exact hprev (i2 + 1) (by omega)
    rw [show start + (i + 1) = start + 1 + i by omega] at hmd hT0 ⊢
    exact ih n (start + 1) (by omega) hprev2 md hmd ho T0 hT0

/-- C5: over a well-formed store next_market_event always returns a
result (exhaustion is the inner none, not an error); with a stored
open record for today it returns today's open event when now is
strictly before the open instant, today's close event when now is at
or after the open and strictly before the close, and otherwise falls
through to the scan; with no open record for today it goes straight to
the scan; the scan starts tomorrow, covers exactly 30 days, returns
the open event of the first open day found, and reports absence
exactly when no scanned day has a stored open record. -/
theorem c5_next_event_selection (store : Store) (hWF : WFStore store) (now : Nat) :
    (next_market_event store now).isSome = true ∧
    (∀ md T0 T1, store (now / 86400) = some md → md.is_open = true →
      et_to_utc (now / 86400) md.open_time_et = some T0 →
      et_to_utc (now / 86400) md.close_time_et = some T1 →
      (now < T0 → next_market_event store now =
        some (some { event_type := "open", event_time_utc := T0,
                     time_until_seconds := (T0 : Int) - (now : Int),
                     next_date := now / 86400, is_early_close := md.is_early_close,
                     notes := md.notes })) ∧
      (T0 ≤ now → now < T1 → next_market_event store now =
        some (some { event_type := "close", event_time_utc := T1,
                     time_until_seconds := (T1 : Int) - (now : Int),
                     next_date := now / 86400, is_early_close := md.is_early_close,
                     notes := md.notes })) ∧
      (T0 ≤ now → T1 ≤ now →
        next_market_event store now = findNextOpen store now (now / 86400 + 1) 30)) ∧
    (isOpenDay store (now / 86400) = false →
      next_market_event store now = findNextOpen store now (now / 86400 + 1) 30) ∧
    (∀ j, j < 30 → (∀ i, i < j → isOpenDay store (now / 86400 + 1 + i) = false) →
      ∀ md, store (now / 86400 + 1 + j) = some md → md.is_open = true →
      ∀ T0, et_to_utc (now / 86400 + 1 + j) md.open_time_et = some T0 →
      findNextOpen store now (now / 86400 + 1) 30 =
        some (some { event_type := "open", event_time_utc := T0,
                     time_until_seconds := (T0 : Int) - (now : Int),
                     next_date := now / 86400 + 1 + j, is_early_close := md.is_early_close,
                     notes := md.notes })) ∧
    (findNextOpen store now (now / 86400 + 1) 30 = some none ↔
      ∀ j, j < 30 → isOpenDay store (now / 86400 + 1 + j) = false) := by
  refine ⟨?_, ?_, ?_, ?_, ?_⟩
  · simp only [next_market_event]
    cases hs : store (now / 86400) with
    | none => exact findNextOpen_isSome store hWF now 30 (now / 86400 + 1)
    | some md =>
      by_cases ho : md.is_open = true
      · obtain ⟨p1, p2⟩ := hWF _ md hs ho
        obtain ⟨T0, hT0⟩ := Option.isSome_iff_exists.mp p1
        obtain ⟨T1, hT1⟩ := Option.isSome_iff_exists.mp p2
        simp only [ho, eq_self_iff_true, if_true, hT0, hT1]
        split_ifs <;> simp [findNextOpen_isSome store hWF now]
      · simp only [Bool.not_eq_true] at ho
        simp only [ho, Bool.false_eq_true, if_false]
        exact findNextOpen_isSome store hWF now 30 (now / 86400 + 1)
  · intro md T0 T1 hmd ho hT0 hT1
    refine ⟨?_, ?_, ?_⟩
    · intro h1
      simp only [next_market_event, hmd, ho, eq_self_iff_true, if_true, hT0, hT1]
      rw [if_pos h1]
    · intro h1 h2
      simp only [next_market_event, hmd, ho, eq_self_iff_true, if_true, hT0, hT1]
      rw [if_neg (by omega), if_pos h2]
    · intro h1 h2
      simp only [next_market_event, hmd, ho, eq_self_iff_true, if_true, hT0, hT1]
      rw [if_neg (by omega), if_neg (by omega)]
  · intro hcl
    simp only [next_market_event]
    cases hs : store (now / 86400) with
    | none => rfl
    | some md =>
      have hcl2 : md.is_open = false := by
        unfold isOpenDay at hcl
        rw [hs] at hcl
        exact hcl
      simp [hcl2]
  · intro j hj hprev md hmd ho T0 hT0
    exact findNextOpen_first store now j 30 (now / 86400 + 1) hj hprev md hmd ho T0 hT0
  · exact findNextOpen_none_iff store now 30 (now / 86400 + 1)

/-- Witness for C5: the singleton generated store for Monday
2025-12-01 is well-formed, and from Sunday 2025-11-30 noon the finder
returns a result. -/
theorem c5_witness :
    (next_market_event (singletonGenStore (mkDate 2025 12 1))
      (mkDate 2025 11 30 * 86400 + 12 * 3600)).isSome = true :=
  (c5_next_event_selection (singletonGenStore (mkDate 2025 12 1))
    (singletonGenStore_WF (mkDate 2025 12 1)) (mkDate 2025 11 30 * 86400 + 12 * 3600)).1

end USMarketHours


